import Mathlib

/-!
Verification of the ShipStation CLI order pipeline (`shipstation.py`).

This file gives a shallow embedding of the parts of the program that carry
correctness obligations: the order data model, the durable dedup ledger
(`seen_orders` table with its idempotent insert), the paginated order fetch,
store-name resolution, the country and new-only filters, the multi-store merge,
and the error classification of `api_request`.  Python dictionaries with
optional keys are embedded as structures with `Option` fields; an absent key is
`none`.  The SQLite ledger is embedded as the list of its rows in insertion
order, with `INSERT OR IGNORE` keyed on `order_id`.  The unbounded pagination
loop receives explicit fuel; `sys.exit(1)` is embedded as `Except.error`.
-/

namespace ShipStation

/-- Character-wise lowercase, embedding Python `str.lower` on the ASCII store
names the program handles. -/
def strLower (s : String) : String := ⟨s.data.map Char.toLower⟩

/-- Character-wise uppercase, embedding Python `str.upper` on country codes. -/
def strUpper (s : String) : String := ⟨s.data.map Char.toUpper⟩

/-- Python `str.strip`: drop leading and trailing whitespace. -/
def strip (s : String) : String :=
  ⟨((s.data.dropWhile Char.isWhitespace).reverse.dropWhile Char.isWhitespace).reverse⟩

/-- Python truthiness of an optional string (`if status:`). -/
def strTruthy : Option String → Bool
  | none => false
  | some s => s != ""

/-- Python truthiness of an optional integer (`if store_id:`). -/
def intTruthy : Option Int → Bool
  | none => false
  | some i => i != 0

/-- The `shipTo` sub-record, restricted to the fields the core reads. -/
structure ShipTo where
  name : Option String
  country : Option String
deriving DecidableEq

/-- The `advancedOptions` sub-record. -/
structure AdvancedOptions where
  storeId : Option Int
deriving DecidableEq

/-- An order as fetched from the API; `none` embeds an absent JSON key. -/
structure Order where
  orderId : Option Int
  orderNumber : Option String
  orderDate : Option String
  createDate : Option String
  orderStatus : Option String
  orderTotal : Int
  shipTo : Option ShipTo
  advancedOptions : Option AdvancedOptions
deriving DecidableEq

/-- Python `order.get("advancedOptions", \x7b\x7d).get("storeId")`. -/
def Order.storeIdOf (o : Order) : Option Int :=
  match o.advancedOptions with
  | none => none
  | some a => a.storeId

/-- Python `order.get("shipTo", \x7b\x7d).get("country", "")`. -/
def Order.shipCountry (o : Order) : String :=
  match o.shipTo with
  | none => ""
  | some s => s.country.getD ""

/-- Python `order.get("shipTo", \x7b\x7d).get("name")`. -/
def Order.shipName (o : Order) : Option String :=
  match o.shipTo with
  | none => none
  | some s => s.name

/-- Python `order.get("createDate", "")`, the multi-store merge sort key. -/
def Order.createKey (o : Order) : String := o.createDate.getD ""

/-- One row of the `seen_orders` table (schema at lines 97-107). -/
structure SeenRecord where
  order_id : Option Int
  order_number : Option String
  first_seen_at : String
  order_date : Option String
  store_id : Option Int
  customer_name : Option String
  order_total : Int
deriving DecidableEq

/-- The ledger: the rows of `seen_orders` in insertion order. -/
abbrev Ledger := List SeenRecord

/-- The function `get_seen_order_ids`: `SELECT order_id FROM seen_orders`. -/
def get_seen_order_ids (conn : Ledger) : List (Option Int) :=
  conn.map (fun r => r.order_id)

/-- The row that `mark_orders_seen` inserts for an order (lines 122-134). -/
def recordOf (now : String) (o : Order) : SeenRecord :=
  { order_id := o.orderId
    order_number := o.orderNumber
    first_seen_at := now
    order_date := o.orderDate
    store_id := o.storeIdOf
    customer_name := o.shipName
    order_total := o.orderTotal }

/-- The function `mark_orders_seen`: one `INSERT OR IGNORE` per order, keyed on
`order_id` (the table's primary key), then a single commit. -/
def mark_orders_seen (conn : Ledger) (now : String) (orders : List Order) : Ledger :=
  orders.foldl
    (fun db o =>
      if db.any (fun r => r.order_id == o.orderId) then db else db ++ [recordOf now o])
    conn

/-- Diagnostic for HTTP 401 (line 151). -/
def authErrorMsg : String := "Error: Invalid API credentials"

/-- Diagnostic for HTTP 429 (line 153). -/
def rateErrorMsg : String := "Error: Rate limit exceeded. Please wait and try again."

/-- Diagnostic for any other HTTP error (line 155). -/
def httpErrorMsg (code : Nat) (reason : String) : String :=
  "Error: HTTP " ++ toString code ++ " - " ++ reason

/-- Diagnostic for a transport-level failure (line 158). -/
def connectErrorMsg (reason : String) : String :=
  "Error: Unable to connect to ShipStation API - " ++ reason

/-- The outcome of one HTTP request as `api_request` observes it: a parsed 2xx
body, an `HTTPError` with its status code, or a `URLError`. -/
inductive ApiOutcome (α : Type) where
  | success (body : α)
  | httpError (code : Nat) (reason : String)
  | urlError (reason : String)
deriving DecidableEq

/-- The function `api_request` (lines 138-159): return the parsed body, or the
kind-specific fatal diagnostic; `sys.exit(1)` is embedded as `Except.error`. -/
def api_request {α : Type} : ApiOutcome α → Except String α
  | .success a => .ok a
  | .httpError code reason =>
      if code = 401 then .error authErrorMsg
      else if code = 429 then .error rateErrorMsg
      else .error (httpErrorMsg code reason)
  | .urlError reason => .error (connectErrorMsg reason)

/-- The module constant `SHIPSTATION_API_URL`. -/
def SHIPSTATION_API_URL : String := "https://ssapi.shipstation.com"

/-- The query parameters `fetch_orders` builds before the page number
(lines 179-185). -/
def base_params (status : Option String) (store_id : Option Int) : List String :=
  ["pageSize=500", "sortBy=CreateDate", "sortDir=DESC"]
    ++ (if strTruthy status then ["orderStatus=" ++ status.getD ""] else [])
    ++ (if intTruthy store_id then ["storeId=" ++ toString (store_id.getD 0)] else [])

/-- The URL `fetch_orders` requests for a given page (lines 191-192). -/
def pageUrl (status : Option String) (store_id : Option Int) (page : Nat) : String :=
  SHIPSTATION_API_URL ++ "/orders?"
    ++ String.intercalate "&" (base_params status store_id ++ ["page=" ++ toString page])

/-- A parsed response of the orders endpoint; `none` embeds an absent key. -/
structure PageResponse where
  orders : Option (List Order)
  total : Option Nat
  pages : Option Nat
deriving DecidableEq

/-- Python `result.get("orders", [])`. -/
def PageResponse.ordersD (r : PageResponse) : List Order := r.orders.getD []

/-- Python `result.get("total", 0)`. -/
def PageResponse.totalD (r : PageResponse) : Nat := r.total.getD 0

/-- Python `result.get("pages", 1)`. -/
def PageResponse.pagesD (r : PageResponse) : Nat := r.pages.getD 1

/-- The environment of a run: the response the remote API gives for each URL. -/
abbrev Server := String → ApiOutcome PageResponse

/-- The pagination loop of `fetch_orders` (lines 190-206).  Returns the list of
requested URLs together with the accumulated orders.  The unbounded `while`
loop of the source receives explicit fuel; fuel exhaustion is an error that the
theorems rule out by hypothesis. -/
def fetchLoop (server : Server) (status : Option String) (store_id : Option Int) :
    Nat → Nat → Except String (List String × List Order)
  | 0, _ => .error "fuel exhausted"
  | fuel + 1, page =>
    match api_request (server (pageUrl status store_id page)) with
    | .error e => .error e
    | .ok result =>
      if page ≥ result.pagesD then
        .ok ([pageUrl status store_id page], result.ordersD)
      else
        match fetchLoop server status store_id fuel (page + 1) with
        | .error e => .error e
        | .ok (urls, rest) =>
          .ok (pageUrl status store_id page :: urls, result.ordersD ++ rest)

/-- The function `fetch_orders`: fetch every page starting from page 1
(lines 176-208). -/
def fetch_orders (server : Server) (status : Option String) (store_id : Option Int)
    (fuel : Nat) : Except String (List String × List Order) :=
  fetchLoop server status store_id fuel 1

/-- The store directory: storeId/storeName pairs in API order (the Python dict
built by `fetch_stores`). -/
abbrev StoreMap := List (Int × String)

/-- Python dict insertion: update in place when the key exists, else append. -/
def dictInsert : List (String × Int) → String → Int → List (String × Int)
  | [], k, v => [(k, v)]
  | (k0, v0) :: rest, k, v =>
      if k0 = k then (k0, v) :: rest else (k0, v0) :: dictInsert rest k v

/-- The reverse map name.lower() to id built at line 375. -/
def name_to_id (store_map : StoreMap) : List (String × Int) :=
  store_map.foldl (fun m p => dictInsert m (strLower p.2) p.1) []

/-- Python `[s.strip().lower() for s in args.stores.split(",")]` (line 376). -/
def parseStoreNames (stores_arg : String) : List String :=
  (stores_arg.splitOn ",").map (fun s => strLower (strip s))

/-- The warning printed for a store name that resolves to no store (line 381). -/
def storeWarning (name : String) : String :=
  "Warning: Store " ++ name ++ " not found. Use --list-stores to see available stores."

/-- The resolution loop at lines 377-381: accumulate the resolved store IDs and
one warning per unresolved name. -/
def resolveLoop (m : List (String × Int)) (names : List String) : List Int × List String :=
  names.foldl
    (fun acc name =>
      match m.lookup name with
      | some sid => (acc.1 ++ [sid], acc.2)
      | none => (acc.1, acc.2 ++ [storeWarning name]))
    ([], [])

/-- Store-name resolution (lines 373-381): parse the comma-separated argument
and resolve each name case-insensitively against the directory. -/
def resolveStores (store_map : StoreMap) (stores_arg : String) : List Int × List String :=
  resolveLoop (name_to_id store_map) (parseStoreNames stores_arg)

/-- Python `orders.sort(key=lambda o: o.get("createDate", ""), reverse=True)`
(line 399): a stable sort, creation date descending, ties keeping their
original relative order. -/
def sortByCreateDesc (orders : List Order) : List Order :=
  orders.mergeSort (fun a b => decide (b.createKey ≤ a.createKey))

/-- Sequential per-store fetches of the multi-store path (lines 395-397),
keeping only the accumulated orders. -/
def fetchMany (server : Server) (status : Option String) (fuel : Nat) :
    List Int → Except String (List Order)
  | [] => .ok []
  | sid :: rest =>
    match fetch_orders server status (some sid) fuel with
    | .error e => .error e
    | .ok (_, orders) =>
      match fetchMany server status fuel rest with
      | .error e => .error e
      | .ok more => .ok (orders ++ more)

/-- The fetch dispatch of `main` (lines 389-402): one fetch when zero or one
store ID is resolved; for several, one fetch per store, concatenated and then
re-sorted by create date descending. -/
def fetchForStores (server : Server) (status : Option String) (fuel : Nat) :
    List Int → Except String (List Order)
  | [sid] =>
    match fetch_orders server status (some sid) fuel with
    | .error e => .error e
    | .ok (_, orders) => .ok orders
  | [] =>
    match fetch_orders server status none fuel with
    | .error e => .error e
    | .ok (_, orders) => .ok orders
  | sids =>
    match fetchMany server status fuel sids with
    | .error e => .error e
    | .ok all => .ok (sortByCreateDesc all)

/-- The country filter (lines 404-419): applied only for a truthy `--country`
argument; keeps exactly the orders whose upper-cased ship-to country equals the
upper-cased filter. -/
def countryFilter (country_arg : Option String) (orders : List Order) : List Order :=
  if strTruthy country_arg then
    orders.filter (fun o => strUpper o.shipCountry == strUpper (country_arg.getD ""))
  else orders

/-- Lines 421-433: snapshot the seen IDs once, classify every fetched order
against that snapshot, and apply the new-only filter when requested.  Returns
the displayed orders together with the IDs classified as new. -/
def classifyAndFilter (conn : Ledger) (orders : List Order) (new_only : Bool) :
    List Order × List (Option Int) :=
  let seen_ids := get_seen_order_ids conn
  let new_order_ids :=
    (orders.filter (fun o => !(seen_ids.contains o.orderId))).map (fun o => o.orderId)
  let displayed :=
    if new_only then orders.filter (fun o => new_order_ids.contains o.orderId) else orders
  (displayed, new_order_ids)

/-- One run of `main` from the snapshot to the commit (lines 421-466): classify
against the snapshot, filter to new-only when requested, display, then mark the
whole displayed set seen. -/
def runPipeline (conn : Ledger) (now : String) (orders : List Order) (new_only : Bool) :
    List Order × Ledger :=
  ((classifyAndFilter conn orders new_only).1,
   mark_orders_seen conn now (classifyAndFilter conn orders new_only).1)

/-- Concrete sample order used in closed-form checks. -/
def order101 : Order :=
  { orderId := some 101
    orderNumber := some "A-101"
    orderDate := some "2024-01-01T00:00:00"
    createDate := some "2024-01-01T00:00:00"
    orderStatus := some "awaiting_shipment"
    orderTotal := 10
    shipTo := some { name := some "Alice", country := some "us" }
    advancedOptions := some { storeId := some 1 } }

/-- Concrete sample order used in closed-form checks. -/
def order104 : Order :=
  { orderId := some 104
    orderNumber := some "A-104"
    orderDate := some "2024-01-03T00:00:00"
    createDate := some "2024-01-03T00:00:00"
    orderStatus := some "awaiting_shipment"
    orderTotal := 25
    shipTo := some { name := some "Bob", country := some "CA" }
    advancedOptions := some { storeId := some 2 } }

/-- Concrete sample order with no shipTo record at all. -/
def order105 : Order :=
  { orderId := some 105
    orderNumber := some "A-105"
    orderDate := none
    createDate := none
    orderStatus := some "awaiting_shipment"
    orderTotal := 5
    shipTo := none
    advancedOptions := none }

/-- A ledger that has already seen order 101. -/
def ledger101 : Ledger := [recordOf "2024-01-01T12:00:00" order101]

/-- A concrete one-page response carrying two orders. -/
def respOne : PageResponse :=
  { orders := some [order101, order104], total := some 2, pages := some 1 }

/-- A server that answers every URL with the same one-page response. -/
def serverOne : Server := fun _ => ApiOutcome.success respOne

/-! Ledger lemmas: behaviour of `mark_orders_seen` as an idempotent,
append-only batch insert keyed on `order_id`. -/

theorem any_id_eq_mem (conn : Ledger) (x : Option Int) :
    (conn.any (fun r => r.order_id == x) = true) ↔ x ∈ get_seen_order_ids conn := by
  simp [List.any_eq_true, get_seen_order_ids, List.mem_map]

theorem mark_orders_seen_nil (conn : Ledger) (now : String) :
    mark_orders_seen conn now [] = conn := rfl

theorem mark_orders_seen_cons (conn : Ledger) (now : String) (o : Order) (os : List Order) :
    mark_orders_seen conn now (o :: os) =
      mark_orders_seen
        (if conn.any (fun r => r.order_id == o.orderId) then conn
         else conn ++ [recordOf now o]) now os := rfl

theorem get_seen_order_ids_append (a b : Ledger) :
    get_seen_order_ids (a ++ b) = get_seen_order_ids a ++ get_seen_order_ids b := by
  simp [get_seen_order_ids]

theorem mark_orders_seen_append (os : List Order) :
    ∀ (conn : Ledger) (now : String), ∃ suffix,
      mark_orders_seen conn now os = conn ++ suffix
      ∧ ∀ r ∈ suffix, r.order_id ∉ get_seen_order_ids conn := by
  induction os with
  | nil => intro conn now; exact ⟨[], by simp [mark_orders_seen_nil]⟩
  | cons o os ih =>
    intro conn now
    rw [mark_orders_seen_cons]
    by_cases h : conn.any (fun r => r.order_id == o.orderId) = true
    · rw [if_pos h]
      exact ih conn now
    · rw [if_neg h]
      obtain ⟨s, hs, hfresh⟩ := ih (conn ++ [recordOf now o]) now
      refine ⟨recordOf now o :: s, ?_, ?_⟩
      · rw [hs, List.append_assoc]; rfl
      · intro r hr
        rcases List.mem_cons.mp hr with h1 | h1
        · subst h1
          show (recordOf now o).order_id ∉ get_seen_order_ids conn
          intro hmem
          exact h ((any_id_eq_mem conn o.orderId).mpr hmem)
        · intro hmem
          exact hfresh r h1 (by
            rw [get_seen_order_ids_append]
            exact List.mem_append_left _ hmem)

theorem mark_orders_seen_mem_ids (os : List Order) :
    ∀ (conn : Ledger) (now : String) (x : Option Int),
      x ∈ get_seen_order_ids (mark_orders_seen conn now os)
        ↔ x ∈ get_seen_order_ids conn ∨ ∃ o ∈ os, o.orderId = x := by
  induction os with
  | nil => intro conn now x; simp [mark_orders_seen_nil]
  | cons o os ih =>
    intro conn now x
    rw [mark_orders_seen_cons]
    by_cases h : conn.any (fun r => r.order_id == o.orderId) = true
    · rw [if_pos h, ih conn now x]
      have hmem : o.orderId ∈ get_seen_order_ids conn := (any_id_eq_mem conn o.orderId).mp h
      constructor
      · rintro (h1 | ⟨o2, ho2, hid⟩)
        · exact Or.inl h1
        · exact Or.inr ⟨o2, List.mem_cons_of_mem _ ho2, hid⟩
      · rintro (h1 | ⟨o2, ho2, hid⟩)
        · exact Or.inl h1
        · rcases List.mem_cons.mp ho2 with h2 | h2
          · subst h2; subst hid; exact Or.inl hmem
          · exact Or.inr ⟨o2, h2, hid⟩
    · rw [if_neg h, ih _ now x, get_seen_order_ids_append]
      constructor
      · rintro (h1 | ⟨o2, ho2, hid⟩)
        · rcases List.mem_append.mp h1 with h2 | h2
          · exact Or.inl h2
          · have hx : x = o.orderId := by
              simpa [get_seen_order_ids, recordOf] using h2
            exact Or.inr ⟨o, List.mem_cons_self _ _, hx.symm⟩
        · exact Or.inr ⟨o2, List.mem_cons_of_mem _ ho2, hid⟩
      · rintro (h1 | ⟨o2, ho2, hid⟩)
        · exact Or.inl (List.mem_append_left _ h1)
        · rcases List.mem_cons.mp ho2 with h2 | h2
          · subst h2
            refine Or.inl (List.mem_append_right _ ?_)
            simp [get_seen_order_ids, recordOf, hid]
          · exact Or.inr ⟨o2, h2, hid⟩

theorem mark_orders_seen_noop (os : List Order) :
    ∀ (conn : Ledger) (now : String),
      (∀ o ∈ os, o.orderId ∈ get_seen_order_ids conn) →
      mark_orders_seen conn now os = conn := by
  induction os with
  | nil => intro conn now _; rfl
  | cons o os ih =>
    intro conn now hall
    rw [mark_orders_seen_cons]
    have h : conn.any (fun r => r.order_id == o.orderId) = true :=
      (any_id_eq_mem conn o.orderId).mpr (hall o (List.mem_cons_self _ _))
    rw [if_pos h]
    exact ih conn now (fun o2 ho2 => hall o2 (List.mem_cons_of_mem _ ho2))

/-- C2: `mark_orders_seen` is idempotent — a second call with the same order
list leaves the ledger exactly as after the first call, and a second call with
any (possibly overlapping) order list only appends records whose `order_id` was
not yet in the ledger, never duplicating or mutating an existing record. -/
theorem C2_mark_orders_seen_idempotent (conn : Ledger) (t1 t2 : String)
    (orders orders2 : List Order) :
    mark_orders_seen (mark_orders_seen conn t1 orders) t2 orders
        = mark_orders_seen conn t1 orders
    ∧ ∃ suffix,
        mark_orders_seen (mark_orders_seen conn t1 orders) t2 orders2
          = mark_orders_seen conn t1 orders ++ suffix
        ∧ ∀ r ∈ suffix,
            r.order_id ∉ get_seen_order_ids (mark_orders_seen conn t1 orders) := by
  constructor
  · apply mark_orders_seen_noop
    intro o ho
    exact (mark_orders_seen_mem_ids orders conn t1 o.orderId).mpr (Or.inr ⟨o, ho, rfl⟩)
  · exact mark_orders_seen_append orders2 (mark_orders_seen conn t1 orders) t2

/-- C4: the commit covers the full displayed set — after a run the seen-ID set
is the union of the prior seen-ID set with the orderIds of every displayed
order — and the ledger is append-only: the run only appends rows, so no ID ever
leaves the ledger. -/
theorem C4_commit_covers_displayed (conn : Ledger) (now : String) (orders : List Order)
    (new_only : Bool) :
    (∀ x : Option Int,
        x ∈ get_seen_order_ids (runPipeline conn now orders new_only).2
          ↔ x ∈ get_seen_order_ids conn
            ∨ x ∈ (runPipeline conn now orders new_only).1.map (fun o => o.orderId))
    ∧ (∃ suffix, (runPipeline conn now orders new_only).2 = conn ++ suffix)
    ∧ ∀ x ∈ get_seen_order_ids conn,
        x ∈ get_seen_order_ids (runPipeline conn now orders new_only).2 := by
  refine ⟨?_, ?_, ?_⟩
  · intro x
    show x ∈ get_seen_order_ids
        (mark_orders_seen conn now (classifyAndFilter conn orders new_only).1) ↔ _
    rw [mark_orders_seen_mem_ids]
    simp only [runPipeline, List.mem_map]
  · obtain ⟨s, hs, _⟩ :=
      mark_orders_seen_append (classifyAndFilter conn orders new_only).1 conn now
    exact ⟨s, hs⟩
  · intro x hx
    show x ∈ get_seen_order_ids
        (mark_orders_seen conn now (classifyAndFilter conn orders new_only).1)
    rw [mark_orders_seen_mem_ids]
    exact Or.inl hx

/-! Classification and filter lemmas. -/

theorem contains_ids_iff (l : List (Option Int)) (x : Option Int) :
    l.contains x = true ↔ x ∈ l := by
  simp [List.contains_iff_exists_mem_beq]

theorem new_ids_contains (conn : Ledger) (orders : List Order) (o : Order)
    (ho : o ∈ orders) :
    ((orders.filter
        (fun o2 => !((get_seen_order_ids conn).contains o2.orderId))).map
          (fun o2 => o2.orderId)).contains o.orderId
      = !((get_seen_order_ids conn).contains o.orderId) := by
  rw [Bool.eq_iff_iff, contains_ids_iff]
  constructor
  · intro hmem
    rcases List.mem_map.mp hmem with ⟨o2, ho2, hid⟩
    rcases List.mem_filter.mp ho2 with ⟨_, hp⟩
    rw [← hid]
    exact hp
  · intro hp
    exact List.mem_map.mpr ⟨o, List.mem_filter.mpr ⟨ho, hp⟩, rfl⟩

/-- C1: the new/seen partition is computed against the single seen-ID snapshot
taken from the pre-commit ledger: an order of the fetched (and filtered) list
is classified new exactly when its orderId is absent from that snapshot; with
new-only requested, exactly the seen-classified orders are dropped; without it
the displayed list is the whole fetched list; and the run commits only after
the displayed list has been computed from that snapshot. -/
theorem C1_partition_correct (conn : Ledger) (now : String) (orders : List Order)
    (new_only : Bool) :
    (∀ o ∈ orders,
        o.orderId ∈ (classifyAndFilter conn orders new_only).2
          ↔ o.orderId ∉ get_seen_order_ids conn)
    ∧ (classifyAndFilter conn orders true).1
        = orders.filter (fun o => !((get_seen_order_ids conn).contains o.orderId))
    ∧ (classifyAndFilter conn orders false).1 = orders
    ∧ (runPipeline conn now orders new_only).1 = (classifyAndFilter conn orders new_only).1
    ∧ (runPipeline conn now orders new_only).2
        = mark_orders_seen conn now (runPipeline conn now orders new_only).1 := by
  refine ⟨?_, ?_, rfl, rfl, rfl⟩
  · intro o ho
    show o.orderId ∈ (orders.filter _).map (fun o2 => o2.orderId) ↔ _
    rw [← contains_ids_iff, new_ids_contains conn orders o ho, Bool.not_eq_true',
      Bool.eq_false_iff, Ne, contains_ids_iff]
  · show orders.filter _ = _
    apply List.filter_congr
    intro o ho
    exact new_ids_contains conn orders o ho

theorem countryFilter_mem_iff (c : String) (orders : List Order) (o : Order)
    (hc : c ≠ "") :
    o ∈ countryFilter (some c) orders
      ↔ o ∈ orders ∧ strUpper o.shipCountry = strUpper c := by
  have htr : strTruthy (some c) = true := by
    simp [strTruthy, hc]
  simp only [countryFilter]
  rw [if_pos htr, List.mem_filter]
  simp [beq_iff_eq]

theorem countryFilter_sublist (c : String) (orders : List Order) (hc : c ≠ "") :
    (countryFilter (some c) orders).Sublist orders := by
  have htr : strTruthy (some c) = true := by
    simp [strTruthy, hc]
  simp only [countryFilter]
  rw [if_pos htr]
  exact List.filter_sublist orders

/-- C6: the country filter keeps an order exactly when its upper-cased ship-to
country equals the upper-cased filter string, and it preserves the relative
order of the retained orders. -/
theorem C6_country_filter_exact (c : String) (orders : List Order) (hc : c ≠ "") :
    (∀ o, o ∈ countryFilter (some c) orders
        ↔ o ∈ orders ∧ strUpper o.shipCountry = strUpper c)
    ∧ (countryFilter (some c) orders).Sublist orders :=
  ⟨fun o => countryFilter_mem_iff c orders o hc, countryFilter_sublist c orders hc⟩

theorem strUpper_empty_iff (s : String) : strUpper s = "" ↔ s = "" := by
  constructor
  · intro h
    have hd : s.data.map Char.toUpper = [] := congrArg String.data h
    have : s.data = [] := List.map_eq_nil_iff.mp hd
    cases s
    simp_all
  · intro h; rw [h]; rfl

/-- C9: under a non-empty country filter, an order whose shipTo record is
absent, or whose country field is absent, is excluded: the missing field reads
as the empty string, which never matches the non-empty upper-cased filter. -/
theorem C9_missing_country_excluded (c : String) (orders : List Order) (o : Order)
    (hc : c ≠ "")
    (hmissing : o.shipTo = none ∨ ∃ s, o.shipTo = some s ∧ s.country = none) :
    o ∉ countryFilter (some c) orders := by
  intro hmem
  have hcountry : o.shipCountry = "" := by
    rcases hmissing with h | ⟨s, hs, hn⟩
    · simp [Order.shipCountry, h]
    · simp [Order.shipCountry, hs, hn]
  have h1 := (countryFilter_mem_iff c orders o hc).mp hmem
  rw [hcountry] at h1
  have : ("" : String) = strUpper c := by
    have : strUpper "" = strUpper c := h1.2
    simpa using this
  exact hc ((strUpper_empty_iff c).mp this.symm)

/-- C10: `fetch_orders` with store_id 0 builds the same query parameters, hence
the same page URLs and the same result, as with no store filter at all; the
storeId parameter is emitted only for a truthy store_id. -/
theorem C10_store_id_zero_no_filter (server : Server) (status : Option String)
    (fuel : Nat) :
    base_params status (some 0) = base_params status none
    ∧ fetch_orders server status (some 0) fuel = fetch_orders server status none fuel
    ∧ ∀ i : Int, i ≠ 0 →
        base_params status (some i)
          = base_params status none ++ ["storeId=" ++ toString i] := by
  have hparams : base_params status (some 0) = base_params status none := by
    simp [base_params, intTruthy]
  refine ⟨hparams, ?_, ?_⟩
  · have hurl : ∀ p, pageUrl status (some 0) p = pageUrl status none p := by
      intro p; simp [pageUrl, hparams]
    show fetchLoop server status (some 0) fuel 1 = fetchLoop server status none fuel 1
    have : ∀ (f p : Nat),
        fetchLoop server status (some 0) f p = fetchLoop server status none f p := by
      intro f
      induction f with
      | zero => intro p; rfl
      | succ f ih =>
        intro p
        show fetchLoop server status (some 0) (f + 1) p
          = fetchLoop server status none (f + 1) p
        simp only [fetchLoop, hurl, ih]
    exact this fuel 1
  · intro i hi
    simp [base_params, intTruthy, hi]

/-! Pagination lemmas. -/

theorem fetchLoop_spec (server : Server) (status : Option String) (store_id : Option Int)
    (P : Nat) (resp : Nat → PageResponse)
    (hserver : ∀ p, 1 ≤ p → p ≤ P →
        server (pageUrl status store_id p) = .success (resp p))
    (hpages : ∀ p, 1 ≤ p → p ≤ P → (resp p).pagesD = P) :
    ∀ (fuel q : Nat), 1 ≤ q → q ≤ P → P - q < fuel →
      fetchLoop server status store_id fuel q
        = .ok ((List.range' q (P - q + 1)).map (pageUrl status store_id),
               ((List.range' q (P - q + 1)).map (fun p => (resp p).ordersD)).flatten) := by
  intro fuel
  induction fuel with
  | zero => intro q _ _ hlt; omega
  | succ fuel ih =>
    intro q hq1 hqP hlt
    show (match api_request (server (pageUrl status store_id q)) with
      | Except.error e => (Except.error e : Except String (List String × List Order))
      | Except.ok result =>
        if q ≥ result.pagesD then
          Except.ok ([pageUrl status store_id q], result.ordersD)
        else
          match fetchLoop server status store_id fuel (q + 1) with
          | Except.error e => Except.error e
          | Except.ok (urls, rest) =>
            Except.ok (pageUrl status store_id q :: urls, result.ordersD ++ rest)) = _
    rw [hserver q hq1 hqP]
    show (if q ≥ (resp q).pagesD then _ else _) = _
    rw [hpages q hq1 hqP]
    by_cases hend : q ≥ P
    · rw [if_pos hend]
      have hqeq : q = P := le_antisymm hqP hend
      have h1 : P - q + 1 = 1 := by omega
      rw [h1]
      simp [List.range'_succ]
    · rw [if_neg hend]
      have harith : P - q + 1 = (P - (q + 1) + 1) + 1 := by omega
      rw [ih (q + 1) (by omega) (by omega) (by omega), harith, List.range'_succ]
      simp [List.range'_succ]

/-- C3: pagination completeness — for a server result set spanning P pages that
consistently reports P pages and total T (T the sum of the page sizes), the
fetch issues exactly the P page requests for pages 1 through P, every request
carrying pageSize 500 and a creation-date-descending sort, and returns one
accumulated sequence whose length equals the server-reported total. -/
theorem C3_pagination_complete (server : Server) (status : Option String)
    (store_id : Option Int) (P T fuel : Nat) (resp : Nat → PageResponse)
    (hP : 1 ≤ P) (hfuel : P ≤ fuel)
    (hserver : ∀ p, 1 ≤ p → p ≤ P →
        server (pageUrl status store_id p) = .success (resp p))
    (hpages : ∀ p, 1 ≤ p → p ≤ P → (resp p).pagesD = P)
    (_htotal : ∀ p, 1 ≤ p → p ≤ P → (resp p).totalD = T)
    (hsum : ((List.range' 1 P).map (fun p => (resp p).ordersD.length)).sum = T) :
    fetch_orders server status store_id fuel
      = .ok ((List.range' 1 P).map (pageUrl status store_id),
             ((List.range' 1 P).map (fun p => (resp p).ordersD)).flatten)
    ∧ ((List.range' 1 P).map (pageUrl status store_id)).length = P
    ∧ (((List.range' 1 P).map (fun p => (resp p).ordersD)).flatten).length = T
    ∧ ∃ rest, base_params status store_id
        = ["pageSize=500", "sortBy=CreateDate", "sortDir=DESC"] ++ rest := by
  refine ⟨?_, ?_, ?_, ⟨_, rfl⟩⟩
  · have h := fetchLoop_spec server status store_id P resp hserver hpages fuel 1
      le_rfl hP (by omega)
    have h1 : P - 1 + 1 = P := by omega
    rw [h1] at h
    exact h
  · simp
  · rw [List.length_flatten, List.map_map]
    rw [← hsum]
    rfl

/-! Error-classification lemmas for `api_request`. -/

theorem string_take_ne {n : Nat} {s t : String} (h : s.data.take n ≠ t.data.take n) :
    s ≠ t :=
  fun he => h (by rw [he])

theorem httpErrorMsg_ne_auth (code : Nat) (reason : String) :
    httpErrorMsg code reason ≠ authErrorMsg := by
  apply string_take_ne (n := 12)
  show (("Error: HTTP " ++ (toString code ++ (" - " ++ reason))).data).take 12 ≠ _
  rw [String.data_append, List.take_append_of_le_length (by decide)]
  decide

theorem httpErrorMsg_ne_rate (code : Nat) (reason : String) :
    httpErrorMsg code reason ≠ rateErrorMsg := by
  apply string_take_ne (n := 12)
  show (("Error: HTTP " ++ (toString code ++ (" - " ++ reason))).data).take 12 ≠ _
  rw [String.data_append, List.take_append_of_le_length (by decide)]
  decide

theorem connectErrorMsg_ne_auth (reason : String) :
    connectErrorMsg reason ≠ authErrorMsg := by
  apply string_take_ne (n := 12)
  show (("Error: Unable to connect to ShipStation API - " ++ reason).data).take 12 ≠ _
  rw [String.data_append, List.take_append_of_le_length (by decide)]
  decide

theorem connectErrorMsg_ne_rate (reason : String) :
    connectErrorMsg reason ≠ rateErrorMsg := by
  apply string_take_ne (n := 12)
  show (("Error: Unable to connect to ShipStation API - " ++ reason).data).take 12 ≠ _
  rw [String.data_append, List.take_append_of_le_length (by decide)]
  decide

/-- C7: every HTTP error and every transport failure during an API request is
fatal to the run (the embedding of `sys.exit(1)` is `Except.error`, and
`api_request` makes exactly one attempt, so nothing is retried), and the
diagnostic distinguishes three kinds — authentication failure (HTTP 401), rate
limiting (HTTP 429), and generic HTTP or network failure — by pairwise distinct
messages. -/
theorem C7_remote_failure_fatal (α : Type) :
    (∀ r : String, @api_request α (ApiOutcome.httpError 401 r) = Except.error authErrorMsg)
    ∧ (∀ r : String, @api_request α (ApiOutcome.httpError 429 r) = Except.error rateErrorMsg)
    ∧ (∀ (code : Nat) (r : String), code ≠ 401 → code ≠ 429 →
        @api_request α (ApiOutcome.httpError code r) = Except.error (httpErrorMsg code r))
    ∧ (∀ r : String, @api_request α (ApiOutcome.urlError r) = Except.error (connectErrorMsg r))
    ∧ (∀ o : ApiOutcome α, (∀ a, o ≠ ApiOutcome.success a) →
        ∃ msg, api_request o = Except.error msg)
    ∧ authErrorMsg ≠ rateErrorMsg
    ∧ (∀ (code : Nat) (r : String),
        httpErrorMsg code r ≠ authErrorMsg ∧ httpErrorMsg code r ≠ rateErrorMsg)
    ∧ (∀ r : String,
        connectErrorMsg r ≠ authErrorMsg ∧ connectErrorMsg r ≠ rateErrorMsg) := by
  refine ⟨fun r => rfl, fun r => rfl, ?_, fun r => rfl, ?_, by decide, ?_, ?_⟩
  · intro code r h401 h429
    show (if code = 401 then _ else if code = 429 then _ else _) = _
    rw [if_neg h401, if_neg h429]
  · intro o ho
    match o with
    | ApiOutcome.success a => exact absurd rfl (ho a)
    | ApiOutcome.httpError code reason =>
      show ∃ msg, (if code = 401 then _ else if code = 429 then _ else _) = Except.error msg
      by_cases h1 : code = 401
      · rw [if_pos h1]; exact ⟨_, rfl⟩
      · rw [if_neg h1]
        by_cases h2 : code = 429
        · rw [if_pos h2]; exact ⟨_, rfl⟩
        · rw [if_neg h2]; exact ⟨_, rfl⟩
    | ApiOutcome.urlError reason => exact ⟨_, rfl⟩
  · exact fun code r => ⟨httpErrorMsg_ne_auth code r, httpErrorMsg_ne_rate code r⟩
  · exact fun r => ⟨connectErrorMsg_ne_auth r, connectErrorMsg_ne_rate r⟩

/-! Store-name resolution lemmas. -/

theorem resolveLoop_go (m : List (String × Int)) :
    ∀ (names : List String) (acc : List Int × List String),
      names.foldl
        (fun acc name =>
          match m.lookup name with
          | some sid => (acc.1 ++ [sid], acc.2)
          | none => (acc.1, acc.2 ++ [storeWarning name])) acc
      = (acc.1 ++ names.filterMap (fun n => m.lookup n),
         acc.2 ++ (names.filter (fun n => (m.lookup n).isNone)).map storeWarning) := by
  intro names
  induction names with
  | nil => intro acc; simp
  | cons n ns ih =>
    intro acc
    rw [List.foldl_cons]
    cases hl : m.lookup n with
    | some sid =>
      simp only [hl]
      rw [ih]
      simp [List.filterMap_cons, List.filter_cons, hl]
    | none =>
      simp only [hl]
      rw [ih]
      simp [List.filterMap_cons, List.filter_cons, hl]

theorem dictInsert_lookup (m : List (String × Int)) (k : String) (v : Int) (n : String) :
    (dictInsert m k v).lookup n = if n = k then some v else m.lookup n := by
  induction m with
  | nil =>
    by_cases h : n = k
    · have hb : (n == k) = true := beq_iff_eq.mpr h
      simp [dictInsert, List.lookup, hb, h]
    · have hb : (n == k) = false := beq_eq_false_iff_ne.mpr h
      simp [dictInsert, List.lookup, hb, h]
  | cons p rest ih =>
    obtain ⟨k0, v0⟩ := p
    by_cases h0 : k0 = k
    · subst h0
      rw [show dictInsert ((k0, v0) :: rest) k0 v = (k0, v) :: rest from by
        simp [dictInsert]]
      by_cases hn : n = k0
      · have hb : (n == k0) = true := beq_iff_eq.mpr hn
        simp [List.lookup, hb, hn]
      · have hb : (n == k0) = false := beq_eq_false_iff_ne.mpr hn
        simp [List.lookup, hb, hn]
    · rw [show dictInsert ((k0, v0) :: rest) k v = (k0, v0) :: dictInsert rest k v from by
        simp [dictInsert, h0]]
      by_cases hn : n = k0
      · have hnk : ¬ n = k := fun he => h0 (by rw [← he, hn])
        have hb : (n == k0) = true := beq_iff_eq.mpr hn
        simp [List.lookup, hb, hnk]
      · have hb : (n == k0) = false := beq_eq_false_iff_ne.mpr hn
        simp [List.lookup, hb, ih]

theorem name_to_id_go (n : String) :
    ∀ (smap : StoreMap) (m0 : List (String × Int)),
      (((smap.foldl (fun m p => dictInsert m (strLower p.2) p.1) m0).lookup n).isSome = true)
        ↔ ((m0.lookup n).isSome = true) ∨ ∃ p ∈ smap, strLower p.2 = n := by
  intro smap
  induction smap with
  | nil => intro m0; simp
  | cons p ps ih =>
    intro m0
    rw [List.foldl_cons, ih, dictInsert_lookup]
    by_cases h : n = strLower p.2
    · rw [if_pos h]
      constructor
      · intro _; exact Or.inr ⟨p, List.mem_cons_self _ _, h.symm⟩
      · intro _; exact Or.inl rfl
    · rw [if_neg h]
      constructor
      · rintro (h1 | ⟨q, hq, hqn⟩)
        · exact Or.inl h1
        · exact Or.inr ⟨q, List.mem_cons_of_mem _ hq, hqn⟩
      · rintro (h1 | ⟨q, hq, hqn⟩)
        · exact Or.inl h1
        · rcases List.mem_cons.mp hq with h2 | h2
          · exact absurd (h2 ▸ hqn).symm h
          · exact Or.inr ⟨q, h2, hqn⟩

/-- C8: store-name resolution — the comma-separated user names, stripped and
lowered, are matched case-insensitively against the directory names (a lookup
succeeds exactly when some directory entry has that lowered name); every name
that resolves contributes its store ID, in order, and every unresolvable name
contributes exactly one warning and is excluded; resolution is a total function
and never fails. -/
theorem C8_store_resolution (store_map : StoreMap) (stores_arg : String) :
    resolveStores store_map stores_arg
      = ((parseStoreNames stores_arg).filterMap
           (fun n => (name_to_id store_map).lookup n),
         ((parseStoreNames stores_arg).filter
             (fun n => ((name_to_id store_map).lookup n).isNone)).map storeWarning)
    ∧ ∀ n : String, (((name_to_id store_map).lookup n).isSome = true)
        ↔ ∃ p ∈ store_map, strLower p.2 = n := by
  constructor
  · show resolveLoop (name_to_id store_map) (parseStoreNames stores_arg) = _
    rw [resolveLoop, resolveLoop_go]
    simp
  · intro n
    show (((store_map.foldl (fun m p => dictInsert m (strLower p.2) p.1) []).lookup n).isSome
        = true) ↔ _
    rw [name_to_id_go n store_map []]
    simp [List.lookup]

/-! Multi-store merge lemmas. -/

theorem sorted_perm_eq {α : Type} {r : α → α → Prop} :
    ∀ (l1 l2 : List α), l1.Perm l2 → l1.Pairwise r → l2.Pairwise r →
      (∀ a ∈ l1, ∀ b ∈ l1, r a b → r b a → a = b) → l1 = l2 := by
  intro l1
  induction l1 with
  | nil =>
    intro l2 hp _ _ _
    exact (hp.symm.eq_nil).symm
  | cons a t1 ih =>
    intro l2 hp hs1 hs2 hanti
    cases l2 with
    | nil => exact absurd hp.eq_nil (by simp)
    | cons b t2 =>
      by_cases hab : a = b
      · subst hab
        have ht : t1.Perm t2 := hp.cons_inv
        have heq : t1 = t2 :=
          ih t2 ht (List.Pairwise.of_cons hs1) (List.Pairwise.of_cons hs2)
            (fun x hx y hy => hanti x (List.mem_cons_of_mem _ hx) y
              (List.mem_cons_of_mem _ hy))
        exact congrArg (List.cons a) heq
      · exfalso
        have hb1 : b ∈ a :: t1 := hp.mem_iff.mpr (List.mem_cons_self b t2)
        have ha2 : a ∈ b :: t2 := hp.mem_iff.mp (List.mem_cons_self a t1)
        have hb1t : b ∈ t1 := by
          rcases List.mem_cons.mp hb1 with h | h
          · exact absurd h.symm hab
          · exact h
        have ha2t : a ∈ t2 := by
          rcases List.mem_cons.mp ha2 with h | h
          · exact absurd h hab
          · exact h
        have hr1 : r a b := (List.pairwise_cons.mp hs1).1 b hb1t
        have hr2 : r b a := (List.pairwise_cons.mp hs2).1 a ha2t
        exact hab (hanti a (List.mem_cons_self a t1) b
          (List.mem_cons.mpr (Or.inr hb1t)) hr1 hr2)

theorem sortByCreateDesc_perm (l : List Order) : (sortByCreateDesc l).Perm l :=
  List.mergeSort_perm l _

theorem sortByCreateDesc_sorted (l : List Order) :
    (sortByCreateDesc l).Pairwise (fun a b => b.createKey ≤ a.createKey) := by
  refine List.Pairwise.imp (fun h => of_decide_eq_true h)
    (@List.sorted_mergeSort Order (fun a b => decide (b.createKey ≤ a.createKey)) ?_ ?_ l)
  · intro a b c hab hbc
    exact decide_eq_true (le_trans (of_decide_eq_true hbc) (of_decide_eq_true hab))
  · intro a b
    rcases le_total b.createKey a.createKey with h | h
    · simp [h]
    · simp [h]

theorem fetchMany_spec (server : Server) (status : Option String) (fuel : Nat)
    (f : Int → List Order) :
    ∀ sids : List Int,
      (∀ sid ∈ sids, ∃ urls,
          fetch_orders server status (some sid) fuel = Except.ok (urls, f sid)) →
      fetchMany server status fuel sids = Except.ok ((sids.map f).flatten) := by
  intro sids
  induction sids with
  | nil => intro _; rfl
  | cons sid rest ih =>
    intro h
    obtain ⟨urls, hu⟩ := h sid (List.mem_cons_self _ _)
    show (match fetch_orders server status (some sid) fuel with
      | Except.error e => (Except.error e : Except String (List Order))
      | Except.ok (_, orders) =>
        match fetchMany server status fuel rest with
        | Except.error e => Except.error e
        | Except.ok more => Except.ok (orders ++ more)) = _
    rw [hu, ih (fun s hs => h s (List.mem_cons_of_mem _ hs))]
    simp

theorem fetchForStores_multi (server : Server) (status : Option String) (fuel : Nat)
    (a b : Int) (rest : List Int) (all : List Order)
    (h : fetchMany server status fuel (a :: b :: rest) = Except.ok all) :
    fetchForStores server status fuel (a :: b :: rest)
      = Except.ok (sortByCreateDesc all) := by
  show (match fetchMany server status fuel (a :: b :: rest) with
    | Except.error e => (Except.error e : Except String (List Order))
    | Except.ok all => Except.ok (sortByCreateDesc all)) = _
  rw [h]

theorem fetchForStores_single (server : Server) (status : Option String) (fuel : Nat)
    (sid : Int) (urls : List String) (orders : List Order)
    (h : fetch_orders server status (some sid) fuel = Except.ok (urls, orders)) :
    fetchForStores server status fuel [sid] = Except.ok orders := by
  show (match fetch_orders server status (some sid) fuel with
    | Except.error e => (Except.error e : Except String (List Order))
    | Except.ok (_, orders) => Except.ok orders) = _
  rw [h]

theorem fetchForStores_none (server : Server) (status : Option String) (fuel : Nat)
    (urls : List String) (orders : List Order)
    (h : fetch_orders server status none fuel = Except.ok (urls, orders)) :
    fetchForStores server status fuel [] = Except.ok orders := by
  show (match fetch_orders server status none fuel with
    | Except.error e => (Except.error e : Except String (List Order))
    | Except.ok (_, orders) => Except.ok orders) = _
  rw [h]

/-- C5: with two or more resolved store IDs the result is the concatenation of
the per-store fetches re-sorted by creation date descending; the sort is a
stable total sort, so it is a permutation of the concatenation, it is sorted
descending, and any combined fetch that is a permutation of the same orders
sorts to the identical sequence whenever creation dates are distinct; with one
or zero resolved store IDs the fetched sequence is returned without any local
re-sort. -/
theorem C5_multi_store_merge (server : Server) (status : Option String) (fuel : Nat)
    (sid1 sid2 : Int) (rest : List Int) (f : Int → List Order)
    (hf : ∀ sid ∈ sid1 :: sid2 :: rest, ∃ urls,
        fetch_orders server status (some sid) fuel = Except.ok (urls, f sid)) :
    fetchForStores server status fuel (sid1 :: sid2 :: rest)
        = Except.ok (sortByCreateDesc (((sid1 :: sid2 :: rest).map f).flatten))
    ∧ (sortByCreateDesc (((sid1 :: sid2 :: rest).map f).flatten)).Perm
        (((sid1 :: sid2 :: rest).map f).flatten)
    ∧ (sortByCreateDesc (((sid1 :: sid2 :: rest).map f).flatten)).Pairwise
        (fun a b => b.createKey ≤ a.createKey)
    ∧ (∀ combined : List Order,
        combined.Perm (((sid1 :: sid2 :: rest).map f).flatten) →
        (∀ a ∈ combined, ∀ b ∈ combined, a.createKey = b.createKey → a = b) →
        sortByCreateDesc combined
          = sortByCreateDesc (((sid1 :: sid2 :: rest).map f).flatten))
    ∧ (∀ (sid : Int) (urls : List String) (orders : List Order),
        fetch_orders server status (some sid) fuel = Except.ok (urls, orders) →
        fetchForStores server status fuel [sid] = Except.ok orders)
    ∧ (∀ (urls : List String) (orders : List Order),
        fetch_orders server status none fuel = Except.ok (urls, orders) →
        fetchForStores server status fuel [] = Except.ok orders) := by
  refine ⟨?_, sortByCreateDesc_perm _, sortByCreateDesc_sorted _, ?_, ?_, ?_⟩
  · exact fetchForStores_multi server status fuel sid1 sid2 rest _
      (fetchMany_spec server status fuel f (sid1 :: sid2 :: rest) hf)
  · intro combined hperm hinj
    have hmemc : ∀ x ∈ sortByCreateDesc combined, x ∈ combined :=
      fun x hx => (sortByCreateDesc_perm combined).mem_iff.mp hx
    refine sorted_perm_eq (sortByCreateDesc combined)
      (sortByCreateDesc (((sid1 :: sid2 :: rest).map f).flatten))
      ?_ (sortByCreateDesc_sorted combined) (sortByCreateDesc_sorted _) ?_
    · exact ((sortByCreateDesc_perm combined).trans hperm).trans
        (sortByCreateDesc_perm _).symm
    · intro a ha b hb h1 h2
      exact hinj a (hmemc a ha) b (hmemc b hb) (le_antisymm h2 h1)
  · exact fun sid urls orders h => fetchForStores_single server status fuel sid urls orders h
  · exact fun urls orders h => fetchForStores_none server status fuel urls orders h

/-! Witnesses: every claim theorem instantiated on concrete data, each
hypothesis discharged on a concrete input. -/

/-- Witness for C1 on a ledger that has seen order 101 and a fetch of orders
101 and 104. -/
theorem C1_partition_correct_witness :
    (∀ o ∈ [order101, order104],
        o.orderId ∈ (classifyAndFilter ledger101 [order101, order104] true).2
          ↔ o.orderId ∉ get_seen_order_ids ledger101)
    ∧ (classifyAndFilter ledger101 [order101, order104] true).1
        = [order101, order104].filter
            (fun o => !((get_seen_order_ids ledger101).contains o.orderId))
    ∧ (classifyAndFilter ledger101 [order101, order104] false).1 = [order101, order104]
    ∧ (runPipeline ledger101 "t1" [order101, order104] true).1
        = (classifyAndFilter ledger101 [order101, order104] true).1
    ∧ (runPipeline ledger101 "t1" [order101, order104] true).2
        = mark_orders_seen ledger101 "t1"
            (runPipeline ledger101 "t1" [order101, order104] true).1 :=
  C1_partition_correct ledger101 "t1" [order101, order104] true

/-- Witness for C2 on a ledger that has seen order 101. -/
theorem C2_mark_orders_seen_idempotent_witness :
    mark_orders_seen (mark_orders_seen ledger101 "a" [order104]) "b" [order104]
        = mark_orders_seen ledger101 "a" [order104]
    ∧ ∃ suffix,
        mark_orders_seen (mark_orders_seen ledger101 "a" [order104]) "b"
            [order101, order104]
          = mark_orders_seen ledger101 "a" [order104] ++ suffix
        ∧ ∀ r ∈ suffix,
            r.order_id ∉ get_seen_order_ids (mark_orders_seen ledger101 "a" [order104]) :=
  C2_mark_orders_seen_idempotent ledger101 "a" "b" [order104] [order101, order104]

/-- Witness for C3 on a one-page server holding two orders. -/
theorem C3_pagination_complete_witness :
    fetch_orders serverOne none none 1
      = Except.ok ((List.range' 1 1).map (pageUrl none none),
          ((List.range' 1 1).map (fun _ => respOne.ordersD)).flatten)
    ∧ ((List.range' 1 1).map (pageUrl none none)).length = 1
    ∧ (((List.range' 1 1).map (fun _ => respOne.ordersD)).flatten).length = 2
    ∧ ∃ rest, base_params none none
        = ["pageSize=500", "sortBy=CreateDate", "sortDir=DESC"] ++ rest :=
  C3_pagination_complete serverOne none none 1 2 1 (fun _ => respOne)
    le_rfl le_rfl (fun _ _ _ => rfl) (fun _ _ _ => rfl) (fun _ _ _ => rfl) rfl

/-- Witness for C4 on a ledger that has seen order 101 and a displayed set of
orders 101 and 104. -/
theorem C4_commit_covers_displayed_witness :
    (∀ x : Option Int,
        x ∈ get_seen_order_ids (runPipeline ledger101 "t1" [order101, order104] false).2
          ↔ x ∈ get_seen_order_ids ledger101
            ∨ x ∈ (runPipeline ledger101 "t1" [order101, order104] false).1.map
                (fun o => o.orderId))
    ∧ (∃ suffix,
        (runPipeline ledger101 "t1" [order101, order104] false).2 = ledger101 ++ suffix)
    ∧ ∀ x ∈ get_seen_order_ids ledger101,
        x ∈ get_seen_order_ids (runPipeline ledger101 "t1" [order101, order104] false).2 :=
  C4_commit_covers_displayed ledger101 "t1" [order101, order104] false

/-- Witness for C5 on two stores answered by the same one-page server. -/
theorem C5_multi_store_merge_witness :
    fetchForStores serverOne none 1 (1 :: 2 :: [])
      = Except.ok (sortByCreateDesc
          (((1 :: 2 :: ([] : List Int)).map (fun _ => respOne.ordersD)).flatten)) :=
  (C5_multi_store_merge serverOne none 1 1 2 [] (fun _ => respOne.ordersD)
    (fun sid _ => ⟨[pageUrl none (some sid) 1], rfl⟩)).1

/-- Witness for C6 with filter string us against orders shipping to us and CA. -/
theorem C6_country_filter_exact_witness :
    (∀ o, o ∈ countryFilter (some "us") [order101, order104]
        ↔ o ∈ [order101, order104] ∧ strUpper o.shipCountry = strUpper "us")
    ∧ (countryFilter (some "us") [order101, order104]).Sublist [order101, order104] :=
  C6_country_filter_exact "us" [order101, order104] (by decide)

/-- Witness for C7 on a concrete transport failure. -/
theorem C7_remote_failure_fatal_witness :
    ∃ msg, @api_request Nat (ApiOutcome.urlError "down") = Except.error msg :=
  (C7_remote_failure_fatal Nat).2.2.2.2.1 (ApiOutcome.urlError "down")
    (fun _ h => ApiOutcome.noConfusion h)

/-- Witness for C8 on the spec scenario: directory Acme and Widgets, user names
Acme and Bogus. -/
theorem C8_store_resolution_witness :
    resolveStores [(1, "Acme"), (2, "Widgets")] "Acme,Bogus"
      = ((parseStoreNames "Acme,Bogus").filterMap
           (fun n => (name_to_id [(1, "Acme"), (2, "Widgets")]).lookup n),
         ((parseStoreNames "Acme,Bogus").filter
             (fun n => ((name_to_id [(1, "Acme"), (2, "Widgets")]).lookup n).isNone)).map
           storeWarning)
    ∧ ∀ n : String,
        (((name_to_id [(1, "Acme"), (2, "Widgets")]).lookup n).isSome = true)
          ↔ ∃ p ∈ [((1 : Int), "Acme"), (2, "Widgets")], strLower p.2 = n :=
  C8_store_resolution [(1, "Acme"), (2, "Widgets")] "Acme,Bogus"

/-- Witness for C9 on an order with no shipTo record under filter US. -/
theorem C9_missing_country_excluded_witness :
    order105 ∉ countryFilter (some "US") [order101, order105] :=
  C9_missing_country_excluded "US" [order101, order105] order105 (by decide)
    (Or.inl rfl)

/-- Witness for C10 on the one-page server. -/
theorem C10_store_id_zero_no_filter_witness :
    base_params none (some 0) = base_params none none
    ∧ fetch_orders serverOne none (some 0) 1 = fetch_orders serverOne none none 1
    ∧ ∀ i : Int, i ≠ 0 →
        base_params none (some i)
          = base_params none none ++ ["storeId=" ++ toString i] :=
  C10_store_id_zero_no_filter serverOne none 1

end ShipStation
